import Mathlib

set_option maxHeartbeats 1600000

/-!
Verification of the feedback derivation engine and input validator of the
auto-feedback-generator repository (src/services/feedbackGenerator.js and
src/utils/validator.js), shallowly embedded in Lean.

JavaScript numbers are modelled as rationals extended with NaN and the two
infinities (`JSNum`); the field values that can occur in the records the
core manipulates are modelled by `JSValue` (undefined, string, number, or
array of strings).  Operations that would throw a TypeError in JavaScript
(for example calling `.join` on a string) return `Except.error ()`.
-/

/-- JavaScript numbers: NaN, +Infinity, -Infinity, or a finite value
(modelled as a rational; every finite double is a rational). -/
inductive JSNum where
  | nan : JSNum
  | posInf : JSNum
  | negInf : JSNum
  | num : ℚ → JSNum
  deriving DecidableEq, Repr

/-- The universe of field values handled by the validator and the engine:
`undefined` models both an absent field and the value `undefined`. -/
inductive JSValue where
  | undefined : JSValue
  | vstr : String → JSValue
  | vnum : JSNum → JSValue
  | varr : List String → JSValue
  deriving DecidableEq, Repr

open JSValue JSNum

deriving instance DecidableEq for Except

/-- JavaScript `n >= q` for a number `n` and a finite literal `q`
(NaN compares false to everything). -/
def numGe (n : JSNum) (q : ℚ) : Bool :=
  match n with
  | .nan => false
  | .posInf => true
  | .negInf => false
  | .num p => decide (q ≤ p)

/-- JavaScript `n < q` for a number `n` and a finite literal `q`. -/
def numLt (n : JSNum) (q : ℚ) : Bool :=
  match n with
  | .nan => false
  | .posInf => false
  | .negInf => true
  | .num p => decide (p < q)

/-- JavaScript `n > q` for a number `n` and a finite literal `q`. -/
def numGt (n : JSNum) (q : ℚ) : Bool :=
  match n with
  | .nan => false
  | .posInf => true
  | .negInf => false
  | .num p => decide (q < p)

/-- JavaScript `isNaN` on an already-converted number. -/
def numIsNaN (n : JSNum) : Bool :=
  match n with
  | .nan => true
  | _ => false

/-- Truthiness of a number: `0` and `NaN` are falsy. -/
def numTruthy (n : JSNum) : Bool :=
  match n with
  | .nan => false
  | .num p => decide (p ≠ 0)
  | _ => true

/-- JavaScript truthiness: `undefined` and `""` are falsy, `0` and `NaN`
are falsy, every array (even empty) is truthy. -/
def truthy (v : JSValue) : Bool :=
  match v with
  | .undefined => false
  | .vstr s => decide (s ≠ "")
  | .vnum n => numTruthy n
  | .varr _ => true

/-- The ECMAScript white-space and line-terminator code points recognised
by `String.prototype.trim`. -/
def isJsWhitespace (c : Char) : Bool :=
  c.toNat ∈ [9, 10, 11, 12, 13, 32, 160, 0x1680,
    0x2000, 0x2001, 0x2002, 0x2003, 0x2004, 0x2005, 0x2006, 0x2007,
    0x2008, 0x2009, 0x200A, 0x2028, 0x2029, 0x202F, 0x205F, 0x3000, 0xFEFF]

/-- `trim` on the character list of a string. -/
def jsTrimList (l : List Char) : List Char :=
  ((l.dropWhile isJsWhitespace).reverse.dropWhile isJsWhitespace).reverse

/-- JavaScript `String.prototype.trim`. -/
def jsTrim (s : String) : String := String.mk (jsTrimList s.data)

/-- `.replace(/[<>]/g, '')`: remove every literal angle bracket. -/
def stripAngle (s : String) : String :=
  String.mk (s.data.filter (fun c => !(c == '<' || c == '>')))

/-- `Array.prototype.join(sep)`: empty list gives the empty string,
otherwise the entries separated by `sep`. -/
def jsJoin (sep : String) (l : List String) : String :=
  match l with
  | [] => ""
  | x :: xs => xs.foldl (fun acc y => acc ++ (sep ++ y)) x

/-- Numeric value of a list of decimal digit characters. -/
def digitsToNat (ds : List Char) : ℕ :=
  ds.foldl (fun a c => 10 * a + (c.toNat - 48)) 0

/-- Numeric value of a list of hexadecimal digit characters. -/
def hexDigitsToNat (ds : List Char) : ℕ :=
  ds.foldl (fun a c =>
    16 * a + (if c.toNat ≥ 97 then c.toNat - 87
              else if c.toNat ≥ 65 then c.toNat - 55
              else c.toNat - 48)) 0

/-- Parse the exponent part of a decimal literal and apply it to the
mantissa; the whole remainder must be consumed. -/
def parseExpPart (r : List Char) (m : ℚ) : Option ℚ :=
  match r with
  | [] => some m
  | e :: r1 =>
    if e = 'e' ∨ e = 'E' then
      let (neg, ds) :=
        match r1 with
        | '+' :: d => (false, d)
        | '-' :: d => (true, d)
        | d => (false, d)
      if ds ≠ [] ∧ ds.all Char.isDigit then
        some (if neg then m / 10 ^ digitsToNat ds else m * 10 ^ digitsToNat ds)
      else none
    else none

/-- Parse an unsigned ECMAScript `StrUnsignedDecimalLiteral`
(digits, optional fraction, optional exponent); the whole input must be
consumed. -/
def parseDecimal (l : List Char) : Option ℚ :=
  let ip := l.takeWhile Char.isDigit
  let r1 := l.dropWhile Char.isDigit
  match r1 with
  | '.' :: r2 =>
    let fp := r2.takeWhile Char.isDigit
    let r3 := r2.dropWhile Char.isDigit
    if ip = [] ∧ fp = [] then none
    else parseExpPart r3 ((digitsToNat ip : ℚ) + (digitsToNat fp : ℚ) / 10 ^ fp.length)
  | _ => if ip = [] then none else parseExpPart r1 (digitsToNat ip)

/-- ECMAScript `StringToNumber`: trim, empty string is `0`, the infinity
literals, non-decimal integer literals, otherwise a signed decimal
literal, and `NaN` for everything else. -/
def strToNumber (s : String) : JSNum :=
  let t := jsTrimList s.data
  if t = [] then .num 0
  else if t = "Infinity".data ∨ t = "+Infinity".data then .posInf
  else if t = "-Infinity".data then .negInf
  else
    match t with
    | '0' :: x :: rest =>
      if x = 'x' ∨ x = 'X' then
        if rest ≠ [] ∧ rest.all (fun c => c.isDigit || (97 ≤ c.toNat ∧ c.toNat ≤ 102) || (65 ≤ c.toNat ∧ c.toNat ≤ 70)) then
          .num (hexDigitsToNat rest : ℚ)
        else .nan
      else if x = 'o' ∨ x = 'O' then
        if rest ≠ [] ∧ rest.all (fun c => 48 ≤ c.toNat ∧ c.toNat ≤ 55) then
          .num (rest.foldl (fun a c => 8 * a + (c.toNat - 48)) 0 : ℚ)
        else .nan
      else if x = 'b' ∨ x = 'B' then
        if rest ≠ [] ∧ rest.all (fun c => c = '0' ∨ c = '1') then
          .num (rest.foldl (fun a c => 2 * a + (c.toNat - 48)) 0 : ℚ)
        else .nan
      else
        match parseDecimal t with
        | some q => .num q
        | none => .nan
    | '+' :: r =>
      match parseDecimal r with
      | some q => .num q
      | none => .nan
    | '-' :: r =>
      match parseDecimal r with
      | some q => .num (-q)
      | none => .nan
    | r =>
      match parseDecimal r with
      | some q => .num q
      | none => .nan

/-- JavaScript `Number(v)` on the modelled values (`Number(undefined)` is
NaN; an array converts through its `","`-joined string form). -/
def toNumber (v : JSValue) : JSNum :=
  match v with
  | .undefined => .nan
  | .vnum n => n
  | .vstr s => strToNumber s
  | .varr l => strToNumber (jsJoin "," l)

/-- Decimal digits of the fractional part of a non-negative rational
below 1, with fuel bounding the number of emitted digits. -/
def fracDigits : ℕ → ℚ → List Char
  | 0, _ => []
  | fuel + 1, q =>
    if q = 0 then []
    else
      let q10 := q * 10
      let d : ℤ := ⌊q10⌋
      Char.ofNat (48 + d.toNat) :: fracDigits fuel (q10 - (d : ℚ))

/-- Decimal rendering of a JavaScript number (exact for integers, which is
all the claims exercise; non-integral rationals render with up to twenty
fraction digits). -/
def numToString (n : JSNum) : String :=
  match n with
  | .nan => "NaN"
  | .posInf => "Infinity"
  | .negInf => "-Infinity"
  | .num q =>
    let a : ℚ := |q|
    let ip : ℤ := ⌊a⌋
    let fr := fracDigits 20 (a - (ip : ℚ))
    let mag := if fr = [] then toString ip.toNat
               else toString ip.toNat ++ "." ++ String.mk fr
    if q < 0 then "-" ++ mag else mag

/-- JavaScript `ToString` of a modelled value (arrays join with `","`). -/
def jsToString (v : JSValue) : String :=
  match v with
  | .undefined => "undefined"
  | .vstr s => s
  | .vnum n => numToString n
  | .varr l => jsJoin "," l

/-- Result shape of the validators: `isValid` together with the collected
error messages. -/
structure ValidationResult where
  isValid : Bool
  errors : List String
  deriving DecidableEq, Repr

/-- The student record as the core sees it: the six fields the validator
and the engine read.  An absent field is `undefined`. -/
structure StudentData where
  name : JSValue
  performance : JSValue
  subject : JSValue
  weakAreas : JSValue
  strengths : JSValue
  learningStyle : JSValue
  deriving DecidableEq, Repr

/-- `Validator.validateStudentData`: the required-field truthiness checks
(in the order name, performance, subject), then the performance range
check, the string type checks, and the array type checks; `isValid` holds
iff no error was collected. -/
def validateStudentData (studentData : StudentData) : ValidationResult :=
  let requiredErrors :=
    (if truthy studentData.name then [] else ["name is required"]) ++
    (if truthy studentData.performance then [] else ["performance is required"]) ++
    (if truthy studentData.subject then [] else ["subject is required"])
  let performanceErrors :=
    if studentData.performance ≠ .undefined then
      let performance := toNumber studentData.performance
      if numIsNaN performance || numLt performance 0 || numGt performance 100 then
        ["Performance must be a number between 0 and 100"]
      else []
    else []
  let nameErrors :=
    if truthy studentData.name &&
       !(match studentData.name with | .vstr _ => true | _ => false) then
      ["Name must be a string"]
    else []
  let subjectErrors :=
    if truthy studentData.subject &&
       !(match studentData.subject with | .vstr _ => true | _ => false) then
      ["Subject must be a string"]
    else []
  let weakAreasErrors :=
    if truthy studentData.weakAreas &&
       !(match studentData.weakAreas with | .varr _ => true | _ => false) then
      ["Weak areas must be an array"]
    else []
  let strengthsErrors :=
    if truthy studentData.strengths &&
       !(match studentData.strengths with | .varr _ => true | _ => false) then
      ["Strengths must be an array"]
    else []
  let errors := requiredErrors ++ performanceErrors ++ nameErrors ++
    subjectErrors ++ weakAreasErrors ++ strengthsErrors
  { isValid := decide (errors.length = 0), errors := errors }

/-- Per-field transform of `Validator.sanitizeInput`: strings are trimmed
and then have their angle brackets removed, everything else passes
through. -/
def sanitizeValue (v : JSValue) : JSValue :=
  match v with
  | .vstr s => .vstr (stripAngle (jsTrim s))
  | _ => v

/-- A generic data object: an insertion-ordered association list, as
`sanitizeInput` iterates `Object.keys`. -/
abbrev JSObj : Type := List (String × JSValue)

/-- Property read `o[k]` (`undefined` when the key is missing). -/
def objGet (o : JSObj) (k : String) : JSValue :=
  match List.find? (fun p => p.1 == k) o with
  | some p => p.2
  | none => .undefined

/-- Property write `o[k] = v` (overwrites in place, appends when new). -/
def objSet (o : JSObj) (k : String) (v : JSValue) : JSObj :=
  match o with
  | [] => [(k, v)]
  | p :: rest => if p.1 = k then (k, v) :: rest else p :: objSet rest k v

/-- The keys of an object in insertion order. -/
def objKeys (o : JSObj) : List String := o.map (·.1)

/-- The `Object.keys(data).forEach` loop of `sanitizeInput`: reads from
`data`, writes into `sanitized`, and never assigns into `data`; the state
of both objects is threaded explicitly so that the absence of mutation of
the input is itself a theorem. -/
def sanitizeLoop : List String → JSObj → JSObj → JSObj × JSObj
  | [], data, sanitized => (data, sanitized)
  | k :: ks, data, sanitized =>
    sanitizeLoop ks data (objSet sanitized k (sanitizeValue (objGet data k)))

/-- `Validator.sanitizeInput`: the final state of the input object paired
with the freshly built sanitized object. -/
def sanitizeInput (data : JSObj) : JSObj × JSObj :=
  sanitizeLoop (objKeys data) data []

/-- `sanitizeInput` applied to a student record (the same per-field
transform, on the six fixed fields). -/
def sanitizeStudent (sd : StudentData) : StudentData :=
  { name := sanitizeValue sd.name
    performance := sanitizeValue sd.performance
    subject := sanitizeValue sd.subject
    weakAreas := sanitizeValue sd.weakAreas
    strengths := sanitizeValue sd.strengths
    learningStyle := sanitizeValue sd.learningStyle }

/-- A caller-supplied rubric: optional named thresholds. -/
structure Rubric where
  excellence : Option ℚ
  good : Option ℚ
  improvement : Option ℚ
  deriving DecidableEq, Repr

/-- Assessment criteria: an optional rubric and an optional weight. -/
structure Criteria where
  rubric : Option Rubric
  weight : Option JSNum
  deriving DecidableEq, Repr

/-- The result bundle returned by `generateFeedback`. -/
structure FeedbackResult where
  studentName : JSValue
  subject : JSValue
  performanceLevel : String
  feedback : String
  recommendations : List String
  nextSteps : List String
  timestamp : String
  deriving DecidableEq, Repr

/-- The constructor table `this.feedbackTemplates`, as a lookup from level
name to template (`none` models an absent property). -/
def feedbackTemplates (level : String) : Option String :=
  if level = "excellent" then
    some "Outstanding work! {student} has demonstrated exceptional understanding of {topic}."
  else if level = "good" then
    some "Good progress! {student} shows solid grasp of {topic} with room for improvement in {areas}."
  else if level = "needsImprovement" then
    some "{student} needs additional support in {topic}. Consider focusing on {recommendations}."
  else none

/-- `assessPerformance`: the three-way threshold classification, applied
to whatever value sits in the `performance` field (JavaScript `>=`
converts non-numbers through `ToNumber`). -/
def assessPerformance (performance : JSValue) : String :=
  if numGe (toNumber performance) 85 then "excellent"
  else if numGe (toNumber performance) 70 then "good"
  else "needsImprovement"

/-- `getBaseTemplate`: `this.feedbackTemplates[level] ||
this.feedbackTemplates.needsImprovement` (the fallback fires on a missing
property and on a falsy, i.e. empty, template string). -/
def getBaseTemplate (level : String) : String :=
  let fallback := "{student} needs additional support in {topic}. Consider focusing on {recommendations}."
  match feedbackTemplates level with
  | some t => if t = "" then fallback else t
  | none => fallback

/-- First occurrence of `pat` in a character list: the surrounding pieces
`(pre, post)` such that the list is `pre ++ pat ++ post`, scanning from
the left (the search semantics of `String.prototype.replace` with a
string pattern). -/
def firstOcc (pat : List Char) : List Char → Option (List Char × List Char)
  | [] => if pat.isPrefixOf ([] : List Char) then some ([], []) else none
  | c :: cs =>
    if pat.isPrefixOf (c :: cs) then some ([], (c :: cs).drop pat.length)
    else (firstOcc pat cs).map (fun pr => (c :: pr.1, pr.2))

/-- ECMAScript `GetSubstitution` for a string pattern (no capture groups):
expands the dollar escapes in the replacement string; `$` followed by
anything other than the four recognised escapes stays literal (an
unrecognised escape emits the dollar and its follower verbatim, which
coincides with consuming one code unit at a time because that follower is
itself not a dollar). -/
def getSubst (m pre post : List Char) : List Char → List Char
  | [] => []
  | c :: rest =>
    if c = '$' then
      match rest with
      | [] => ['$']
      | d :: rest1 =>
        if d = '$' then '$' :: getSubst m pre post rest1
        else if d = '&' then m ++ getSubst m pre post rest1
        else if d = Char.ofNat 96 then pre ++ getSubst m pre post rest1
        else if d = Char.ofNat 39 then post ++ getSubst m pre post rest1
        else '$' :: d :: getSubst m pre post rest1
    else c :: getSubst m pre post rest

/-- `String.prototype.replace` with a string pattern on character lists:
replace the first occurrence, expanding dollar escapes in the
replacement. -/
def listReplace (pat s repl : List Char) : List Char :=
  match firstOcc pat s with
  | none => s
  | some (pre, post) => pre ++ getSubst pat pre post repl ++ post

/-- `String.prototype.replace` with a string pattern. -/
def jsReplace (s pat repl : String) : String :=
  String.mk (listReplace pat.data s.data repl.data)

/-- The placeholder token for a key: `"{" ++ key ++ "}"`. -/
def placeholderPat (key : String) : String :=
  String.mk (Char.ofNat 123 :: key.data ++ [Char.ofNat 125])

/-- `personalizeFeedback`: for each binding in insertion order, replace
the first occurrence of its placeholder token, coercing the bound value
to a string. -/
def personalizeFeedback (template : String) (data : List (String × JSValue)) : String :=
  data.foldl (fun acc p => jsReplace acc (placeholderPat p.1) (jsToString p.2)) template

/-- `weakAreas?.join(sep)`: `undefined` short-circuits the optional
chain, arrays join, and calling `.join` on a string or number throws. -/
def jsOptJoin (v : JSValue) (sep : String) : Except Unit (Option String) :=
  match v with
  | .undefined => .ok none
  | .varr l => .ok (some (jsJoin sep l))
  | .vstr _ => .error ()
  | .vnum _ => .error ()

/-- The value bound to the `areas` slot:
`weakAreas?.join(', ') || 'general concepts'` (the fallback fires on
`undefined` and on an empty joined string). -/
def areasBinding (weakAreas : JSValue) : Except Unit String :=
  (jsOptJoin weakAreas ", ").map (fun j =>
    match j with
    | some s => if s = "" then "general concepts" else s
    | none => "general concepts")

/-- The strengths part of the short-form recommendation:
`strengths?.join(' and ') || 'identified areas'`. -/
def strengthsPart (strengths : JSValue) : Except Unit String :=
  (jsOptJoin strengths " and ").map (fun j =>
    match j with
    | some s => if s = "" then "identified areas" else s
    | none => "identified areas")

/-- `generateRecommendations`: the literal text when `weakAreas` is falsy
or has length `0`; otherwise the `Focus on …` sentence from the first two
weak areas (a truthy non-array `weakAreas` reaches `.slice(0,2).join` and
throws). -/
def generateRecommendations (weakAreas strengths : JSValue) : Except Unit String :=
  match weakAreas with
  | .undefined => .ok "Continue building on current strengths"
  | .vstr s =>
    if s = "" then .ok "Continue building on current strengths"
    else .error ()
  | .vnum n =>
    if numTruthy n then .error ()
    else .ok "Continue building on current strengths"
  | .varr l =>
    if l.length = 0 then .ok "Continue building on current strengths"
    else
      (strengthsPart strengths).map (fun sp =>
        "Focus on " ++ jsJoin " and " (l.take 2) ++
        " while leveraging strengths in " ++ sp)

/-- One conditional entry of `generateDetailedRecommendations`: pushed
when the field is truthy with positive length (a truthy non-empty string
reaches `.join` and throws; numbers have no `length` and are skipped). -/
def detailEntry (v : JSValue) (label : String) : Except Unit (List String) :=
  match v with
  | .undefined => .ok []
  | .vstr s => if s = "" then .ok [] else .error ()
  | .vnum _ => .ok []
  | .varr l =>
    if l.length > 0 then .ok [label ++ jsJoin ", " l] else .ok []

/-- `generateDetailedRecommendations`: the weak-area line, the strengths
line, and the learning-style line, in that order, each only when its
source field is present. -/
def generateDetailedRecommendations (studentData : StudentData) : Except Unit (List String) := do
  let r1 ← detailEntry studentData.weakAreas "Target improvement areas: "
  let r2 ← detailEntry studentData.strengths "Build upon strengths: "
  let r3 :=
    if truthy studentData.learningStyle then
      ["Adapt teaching methods for " ++ jsToString studentData.learningStyle ++
       " learning style"]
    else []
  pure (r1 ++ r2 ++ r3)

/-- `generateNextSteps`: fixed lines per level; `needsImprovement` adds
the focus line when `weakAreas` is truthy with positive length (a truthy
non-empty string there reaches `.slice(0,2).join` and throws). -/
def generateNextSteps (performanceLevel : String) (weakAreas : JSValue) :
    Except Unit (List String) :=
  if performanceLevel = "excellent" then
    .ok ["Explore advanced topics and challenges",
         "Consider peer tutoring opportunities"]
  else if performanceLevel = "good" then
    .ok ["Practice additional exercises in identified areas",
         "Seek clarification on challenging concepts"]
  else if performanceLevel = "needsImprovement" then
    match weakAreas with
    | .undefined => .ok ["Schedule additional support sessions", "Review fundamental concepts"]
    | .vstr s =>
      if s = "" then .ok ["Schedule additional support sessions", "Review fundamental concepts"]
      else .error ()
    | .vnum _ => .ok ["Schedule additional support sessions", "Review fundamental concepts"]
    | .varr l =>
      if l.length > 0 then
        .ok ["Schedule additional support sessions", "Review fundamental concepts",
             "Focus specifically on: " ++ jsJoin " and " (l.take 2)]
      else .ok ["Schedule additional support sessions", "Review fundamental concepts"]
  else .ok []

/-- `generateFeedback`: classify, select the template, bind the four
slots (in the object-literal order student, topic, areas,
recommendations), substitute, and assemble the result; `criteria` is
accepted but never read, and the timestamp is the injected clock value. -/
def generateFeedback (studentData : StudentData) (criteria : Criteria) (now : String) :
    Except Unit FeedbackResult := do
  let name := studentData.name
  let performance := studentData.performance
  let subject := studentData.subject
  let weakAreas := studentData.weakAreas
  let strengths := studentData.strengths
  let performanceLevel := assessPerformance performance
  let baseFeedback := getBaseTemplate performanceLevel
  let areas ← areasBinding weakAreas
  let recommendations ← generateRecommendations weakAreas strengths
  let feedback := personalizeFeedback baseFeedback
    [("student", name), ("topic", subject),
     ("areas", .vstr areas), ("recommendations", .vstr recommendations)]
  let detailed ← generateDetailedRecommendations studentData
  let nextSteps ← generateNextSteps performanceLevel weakAreas
  pure { studentName := name
         subject := subject
         performanceLevel := performanceLevel
         feedback := feedback
         recommendations := detailed
         nextSteps := nextSteps
         timestamp := now }

/-- A rendered string still holds an unresolved placeholder when one of
the four known placeholder tokens occurs in it. -/
def hasUnresolvedPlaceholder (s : String) : Bool :=
  ["student", "topic", "areas", "recommendations"].any
    (fun k => (firstOcc (placeholderPat k).data s.data).isSome)

/-- A string free of brace and dollar characters: such a value can
neither introduce a placeholder token nor trigger a dollar escape when
substituted. -/
def cleanStr (s : String) : Bool :=
  s.data.all (fun c => !(c == Char.ofNat 123 || c == '$'))

/-- Field-level cleanliness: the strings a value contributes to the
rendered feedback are brace- and dollar-free. -/
def cleanV (v : JSValue) : Bool :=
  match v with
  | .vstr s => cleanStr s
  | .varr l => l.all cleanStr
  | _ => true

/-- Criteria with no fields supplied. -/
def emptyCriteria : Criteria := ⟨none, none⟩

/-- Criteria carrying a custom rubric with excellence/good/improvement
thresholds that differ from the engine's fixed 85/70 cutoffs. -/
def rubricCriteria : Criteria := ⟨some ⟨some 90, some 80, some 60⟩, none⟩

/-- The excellent-performance record from the repository's test suite. -/
def johnRecord : StudentData :=
  { name := .vstr "John Doe", performance := .vnum (.num 90),
    subject := .vstr "Mathematics", weakAreas := .varr [],
    strengths := .varr ["Problem solving", "Analytical thinking"],
    learningStyle := .undefined }

/-- A record that passes validation and is a fixed point of sanitization,
whose name is itself a placeholder token. -/
def braceRecord : StudentData :=
  { name := .vstr "{topic}", performance := .vnum (.num 90),
    subject := .vstr "Science", weakAreas := .undefined, strengths := .undefined,
    learningStyle := .undefined }

/-- A two-field object for exercising `sanitizeInput`. -/
def sampleObj : JSObj :=
  [("name", .vstr " <b>Bob</b> "), ("performance", .vnum (.num 50))]

lemma assess_num_of_ge (q : ℚ) (h : 85 ≤ q) :
    assessPerformance (.vnum (.num q)) = "excellent" := by
  simp [assessPerformance, toNumber, numGe, h]

lemma assess_num_of_mid (q : ℚ) (h70 : 70 ≤ q) (h85 : ¬ 85 ≤ q) :
    assessPerformance (.vnum (.num q)) = "good" := by
  simp [assessPerformance, toNumber, numGe, h70, h85]

lemma assess_num_of_lt (q : ℚ) (h70 : ¬ 70 ≤ q) :
    assessPerformance (.vnum (.num q)) = "needsImprovement" := by
  have h85 : ¬ (85:ℚ) ≤ q := fun h => h70 (le_trans (by norm_num) h)
  simp [assessPerformance, toNumber, numGe, h70, h85]

lemma assess_total (v : JSValue) :
    assessPerformance v = "excellent" ∨ assessPerformance v = "good" ∨
      assessPerformance v = "needsImprovement" := by
  unfold assessPerformance
  by_cases h1 : numGe (toNumber v) 85 = true
  · simp [h1]
  · by_cases h2 : numGe (toNumber v) 70 = true <;> simp [h1, h2]

lemma getBaseTemplate_of_level (lvl : String)
    (h : lvl = "excellent" ∨ lvl = "good" ∨ lvl = "needsImprovement") :
    ∃ t, feedbackTemplates lvl = some t ∧ t ≠ "" ∧ getBaseTemplate lvl = t := by
  rcases h with rfl | rfl | rfl <;> exact ⟨_, rfl, by decide, by decide⟩

/-- Claim C1: on the validated domain [0,100], `assessPerformance` is the
total three-way step function with inclusive lower bounds: [85,100] is
excellent, [70,85) is good, [0,70) is needsImprovement. -/
theorem claim_C1 (q : ℚ) (h0 : 0 ≤ q) (h100 : q ≤ 100) :
    (assessPerformance (.vnum (.num q)) = "excellent" ↔ 85 ≤ q) ∧
    (assessPerformance (.vnum (.num q)) = "good" ↔ 70 ≤ q ∧ q < 85) ∧
    (assessPerformance (.vnum (.num q)) = "needsImprovement" ↔ q < 70) := by
  by_cases h85 : (85:ℚ) ≤ q
  · rw [assess_num_of_ge q h85]
    exact ⟨⟨fun _ => h85, fun _ => rfl⟩,
      ⟨fun h => absurd h (by decide), fun h => absurd h85 (not_le.mpr h.2)⟩,
      ⟨fun h => absurd h (by decide),
       fun h => absurd h85 (not_le.mpr (lt_of_lt_of_le h (by norm_num)))⟩⟩
  · by_cases h70 : (70:ℚ) ≤ q
    · rw [assess_num_of_mid q h70 h85]
      exact ⟨⟨fun h => absurd h (by decide), fun h => absurd h h85⟩,
        ⟨fun _ => ⟨h70, not_le.mp h85⟩, fun _ => rfl⟩,
        ⟨fun h => absurd h (by decide), fun h => absurd h70 (not_le.mpr h)⟩⟩
    · rw [assess_num_of_lt q h70]
      exact ⟨⟨fun h => absurd h (by decide),
              fun h => absurd (le_trans (by norm_num) h) h70⟩,
        ⟨fun h => absurd h (by decide), fun h => absurd h.1 h70⟩,
        ⟨fun _ => not_le.mp h70, fun _ => rfl⟩⟩

/-- Witness for C1: the boundary value 85 is classified excellent. -/
theorem claim_C1_witness :
    assessPerformance (.vnum (.num 85)) = "excellent" :=
  (claim_C1 85 (by norm_num) (by norm_num)).1.mpr (by norm_num)

/-- Claim C10: for every number, including NaN and out-of-range values,
`assessPerformance` returns one of the three level strings; the template
table has a non-empty entry for the returned level, so `getBaseTemplate`
returns it without taking its fallback branch; NaN and every value below
70 classify as needsImprovement. -/
theorem claim_C10 (n : JSNum) :
    (assessPerformance (.vnum n) = "excellent" ∨
     assessPerformance (.vnum n) = "good" ∨
     assessPerformance (.vnum n) = "needsImprovement") ∧
    (∃ t, feedbackTemplates (assessPerformance (.vnum n)) = some t ∧ t ≠ "" ∧
      getBaseTemplate (assessPerformance (.vnum n)) = t) ∧
    ((n = .nan ∨ n = .negInf ∨ ∃ p, n = .num p ∧ p < 70) →
      assessPerformance (.vnum n) = "needsImprovement") := by
  refine ⟨assess_total _, getBaseTemplate_of_level _ (assess_total _), ?_⟩
  rintro (rfl | rfl | ⟨p, rfl, hp⟩)
  · decide
  · decide
  · exact assess_num_of_lt p (not_le.mpr hp)

/-- Witness for C10: NaN classifies as needsImprovement. -/
theorem claim_C10_witness :
    assessPerformance (.vnum .nan) = "needsImprovement" :=
  (claim_C10 .nan).2.2 (Or.inl rfl)

/-- Claim C3: for a validated record, the performance level produced by
`generateFeedback` is independent of the criteria argument (the engine
never reads `criteria.rubric`). -/
theorem claim_C3 (sd : StudentData) (c1 c2 : Criteria) (now : String)
    (hvalid : (validateStudentData sd).isValid = true) :
    (generateFeedback sd c1 now).map (fun r => r.performanceLevel) =
      (generateFeedback sd c2 now).map (fun r => r.performanceLevel) := rfl

/-- Witness for C3: a valid record classified identically under a custom
rubric and under empty criteria. -/
theorem claim_C3_witness :
    (validateStudentData johnRecord).isValid = true ∧
    (generateFeedback johnRecord rubricCriteria "T").map (fun r => r.performanceLevel) =
      (generateFeedback johnRecord emptyCriteria "T").map (fun r => r.performanceLevel) :=
  ⟨by decide, claim_C3 johnRecord rubricCriteria emptyCriteria "T" (by decide)⟩

/-- Claim C7: `generateNextSteps` returns the two fixed lines for
excellent and for good regardless of weak areas, and for needsImprovement
the two fixed lines plus, exactly when weakAreas is non-empty, the focus
line built from at most the first two weak areas joined by " and ". -/
theorem claim_C7 (l : List String) :
    generateNextSteps "excellent" (.varr l) =
      .ok ["Explore advanced topics and challenges",
           "Consider peer tutoring opportunities"] ∧
    generateNextSteps "good" (.varr l) =
      .ok ["Practice additional exercises in identified areas",
           "Seek clarification on challenging concepts"] ∧
    (l = [] → generateNextSteps "needsImprovement" (.varr l) =
      .ok ["Schedule additional support sessions", "Review fundamental concepts"]) ∧
    (l ≠ [] → generateNextSteps "needsImprovement" (.varr l) =
      .ok ["Schedule additional support sessions", "Review fundamental concepts",
           "Focus specifically on: " ++ jsJoin " and " (l.take 2)]) := by
  refine ⟨by simp [generateNextSteps], by simp [generateNextSteps], ?_, ?_⟩
  · rintro rfl; simp [generateNextSteps]
  · intro h
    cases l with
    | nil => exact absurd rfl h
    | cons x xs => simp [generateNextSteps]

/-- Witness for C7: three weak areas yield the focus line on the first
two only. -/
theorem claim_C7_witness :
    generateNextSteps "needsImprovement" (.varr ["Grammar", "Vocabulary", "Style"]) =
      .ok ["Schedule additional support sessions", "Review fundamental concepts",
           "Focus specifically on: " ++
             jsJoin " and " (["Grammar", "Vocabulary", "Style"].take 2)] :=
  (claim_C7 ["Grammar", "Vocabulary", "Style"]).2.2.2 (by decide)

/-- Claim C5 as amended: empty or absent weakAreas yields the literal
text regardless of strengths; non-empty weakAreas yields the Focus
sentence on the first two weak areas, with "identified areas" standing in
when strengths is absent, empty, or joins to the empty string. -/
theorem claim_C5_amended (l m : List String) (strengths : JSValue) :
    generateRecommendations .undefined strengths =
      .ok "Continue building on current strengths" ∧
    generateRecommendations (.varr []) strengths =
      .ok "Continue building on current strengths" ∧
    (l ≠ [] → generateRecommendations (.varr l) .undefined =
      .ok ("Focus on " ++ jsJoin " and " (l.take 2) ++
           " while leveraging strengths in " ++ "identified areas")) ∧
    (l ≠ [] → generateRecommendations (.varr l) (.varr m) =
      .ok ("Focus on " ++ jsJoin " and " (l.take 2) ++
           " while leveraging strengths in " ++
           (if jsJoin " and " m = "" then "identified areas"
            else jsJoin " and " m))) := by
  refine ⟨rfl, rfl, ?_, ?_⟩ <;> intro h <;>
    cases l with
    | nil => exact absurd rfl h
    | cons x xs => simp [generateRecommendations, strengthsPart, jsOptJoin, Except.map]

/-- Counterexample to C5 as stated: strengths `[""]` is neither empty nor
absent, yet the code substitutes "identified areas" instead of the joined
(empty) strengths string the claim prescribes. -/
theorem claim_C5_counterexample :
    generateRecommendations (.varr ["x"]) (.varr [""]) =
      .ok "Focus on x while leveraging strengths in identified areas" ∧
    generateRecommendations (.varr ["x"]) (.varr [""]) ≠
      .ok ("Focus on " ++ jsJoin " and " (["x"].take 2) ++
           " while leveraging strengths in " ++ jsJoin " and " [""]) := by
  decide

/-- Witness for the amended C5: three weak areas and one strength. -/
theorem claim_C5_amended_witness :
    generateRecommendations (.varr ["Grammar", "Spelling", "Style"])
        (.varr ["Creative writing"]) =
      .ok ("Focus on " ++ jsJoin " and " (["Grammar", "Spelling", "Style"].take 2) ++
           " while leveraging strengths in " ++
           (if jsJoin " and " ["Creative writing"] = "" then "identified areas"
            else jsJoin " and " ["Creative writing"])) :=
  (claim_C5_amended ["Grammar", "Spelling", "Style"] ["Creative writing"] .undefined).2.2.2
    (by decide)

/-- Claim C6 as amended: the areas slot is bound to the weak areas joined
with ", " whenever that join is non-empty, and to the literal fallback
"general concepts" when weakAreas is absent or the join is empty (the
empty list, or the single empty label). -/
theorem claim_C6_amended (l : List String) :
    areasBinding .undefined = .ok "general concepts" ∧
    (jsJoin ", " l = "" → areasBinding (.varr l) = .ok "general concepts") ∧
    (jsJoin ", " l ≠ "" → areasBinding (.varr l) = .ok (jsJoin ", " l)) := by
  refine ⟨rfl, ?_, ?_⟩ <;> intro h <;> simp [areasBinding, jsOptJoin, Except.map, h]

/-- Counterexample to C6 as stated: weakAreas `[""]` is non-empty, yet
the slot is bound to the fallback "general concepts" rather than to the
joined string. -/
theorem claim_C6_counterexample :
    (([""] : List String) ≠ []) ∧
    areasBinding (.varr [""]) = .ok "general concepts" ∧
    areasBinding (.varr [""]) ≠ .ok (jsJoin ", " [""]) := by
  decide

/-- Witness for the amended C6: a non-empty weak area label is bound
joined. -/
theorem claim_C6_amended_witness :
    areasBinding (.varr ["Lab procedures"]) = .ok (jsJoin ", " ["Lab procedures"]) :=
  (claim_C6_amended ["Lab procedures"]).2.2 (by decide)

/-- Claim C4 as amended: a record with non-empty string name and subject,
a numeric performance in (0,100] (a performance of exactly 0 is falsy and
trips the required-field check), and absent or correctly typed optional
fields validates with an empty error list. -/
theorem claim_C4_amended (nm sb : String) (q : ℚ) (w s ls : JSValue)
    (hnm : nm ≠ "") (hsb : sb ≠ "") (h0 : 0 < q) (h100 : q ≤ 100)
    (hw : w = .undefined ∨ ∃ l, w = .varr l)
    (hs : s = .undefined ∨ ∃ l, s = .varr l)
    (hls : ls = .undefined ∨ ∃ t, ls = .vstr t) :
    validateStudentData
      { name := .vstr nm, performance := .vnum (.num q), subject := .vstr sb,
        weakAreas := w, strengths := s, learningStyle := ls } =
      { isValid := true, errors := [] } := by
  have hq0 : q ≠ 0 := ne_of_gt h0
  have hlt : ¬ (q < 0) := not_lt.mpr (le_of_lt h0)
  have hgt : ¬ (100 < q) := not_lt.mpr h100
  rcases hw with rfl | ⟨l1, rfl⟩ <;> rcases hs with rfl | ⟨l2, rfl⟩ <;>
    rcases hls with rfl | ⟨t, rfl⟩ <;>
    simp [validateStudentData, truthy, numTruthy, toNumber, numIsNaN,
          numLt, numGt, hnm, hsb, hq0, hlt, hgt]

/-- Counterexample to C4 as stated: performance 0 lies in [0,100], the
name and subject are non-empty, and all optional fields are absent, yet
validation fails with the required-field error (0 is falsy). -/
theorem claim_C4_counterexample :
    (0:ℚ) ≤ 0 ∧ (0:ℚ) ≤ 100 ∧
    validateStudentData
      { name := .vstr "Ann", performance := .vnum (.num 0), subject := .vstr "Math",
        weakAreas := .undefined, strengths := .undefined, learningStyle := .undefined } =
      { isValid := false, errors := ["performance is required"] } :=
  ⟨le_refl 0, by norm_num, by decide⟩

/-- Witness for the amended C4. -/
theorem claim_C4_amended_witness :
    validateStudentData
      { name := .vstr "Ann", performance := .vnum (.num 50), subject := .vstr "Math",
        weakAreas := .varr ["Algebra"], strengths := .undefined,
        learningStyle := .vstr "visual" } =
      { isValid := true, errors := [] } :=
  claim_C4_amended "Ann" "Math" 50 (.varr ["Algebra"]) .undefined (.vstr "visual")
    (by decide) (by decide) (by norm_num) (by norm_num)
    (Or.inr ⟨["Algebra"], rfl⟩) (Or.inl rfl) (Or.inr ⟨"visual", rfl⟩)

/-- Claim C8 as amended: with name, performance and subject all absent,
validation returns exactly the three required-field errors whenever the
optional array fields are themselves absent or arrays (an ill-typed
optional field appends its own error); learningStyle is never checked. -/
theorem claim_C8_amended (w s ls : JSValue)
    (hw : w = .undefined ∨ ∃ l, w = .varr l)
    (hs : s = .undefined ∨ ∃ l, s = .varr l) :
    validateStudentData
      { name := .undefined, performance := .undefined, subject := .undefined,
        weakAreas := w, strengths := s, learningStyle := ls } =
      { isValid := false,
        errors := ["name is required", "performance is required",
                   "subject is required"] } := by
  rcases hw with rfl | ⟨l1, rfl⟩ <;> rcases hs with rfl | ⟨l2, rfl⟩ <;>
    simp [validateStudentData, truthy]

/-- Counterexample to C8 as stated: a non-array weakAreas value makes the
error list four entries long, so the verdict is not exactly the three
required-field errors regardless of the remaining fields. -/
theorem claim_C8_counterexample :
    (validateStudentData
      { name := .undefined, performance := .undefined, subject := .undefined,
        weakAreas := .vstr "x", strengths := .undefined, learningStyle := .undefined }).errors =
      ["name is required", "performance is required", "subject is required",
       "Weak areas must be an array"] ∧
    (validateStudentData
      { name := .undefined, performance := .undefined, subject := .undefined,
        weakAreas := .vstr "x", strengths := .undefined,
        learningStyle := .undefined }).errors.length ≠ 3 := by
  decide

/-- Witness for the amended C8. -/
theorem claim_C8_amended_witness :
    validateStudentData
      { name := .undefined, performance := .undefined, subject := .undefined,
        weakAreas := .varr ["Algebra"], strengths := .undefined,
        learningStyle := .vnum (.num 7) } =
      { isValid := false,
        errors := ["name is required", "performance is required",
                   "subject is required"] } :=
  claim_C8_amended (.varr ["Algebra"]) .undefined (.vnum (.num 7))
    (Or.inr ⟨["Algebra"], rfl⟩) (Or.inl rfl)

lemma sanitizeLoop_fst (ks : List String) (data san : JSObj) :
    (sanitizeLoop ks data san).1 = data := by
  induction ks generalizing san with
  | nil => rfl
  | cons k ks ih => exact ih _

lemma objSet_of_not_mem (o : JSObj) (k : String) (v : JSValue)
    (h : k ∉ objKeys o) : objSet o k v = o ++ [(k, v)] := by
  induction o with
  | nil => rfl
  | cons p rest ih =>
    rw [show objKeys (p :: rest) = p.1 :: objKeys rest from rfl] at h
    have h1 : ¬ p.1 = k := fun e => h (e ▸ List.mem_cons_self _ _)
    have h2 : k ∉ objKeys rest := fun m => h (List.mem_cons_of_mem _ m)
    simp [objSet, h1, ih h2]

lemma sanitizeLoop_snd (data : JSObj) (ks : List String) (san : JSObj)
    (hnd : ks.Nodup) (hdis : ∀ k ∈ ks, k ∉ objKeys san) :
    (sanitizeLoop ks data san).2 =
      san ++ ks.map (fun k => (k, sanitizeValue (objGet data k))) := by
  induction ks generalizing san with
  | nil => simp [sanitizeLoop]
  | cons k ks ih =>
    have hk : k ∉ objKeys san := hdis k (List.mem_cons_self _ _)
    obtain ⟨hknot, hnd2⟩ := List.nodup_cons.mp hnd
    show (sanitizeLoop ks data (objSet san k (sanitizeValue (objGet data k)))).2 = _
    rw [objSet_of_not_mem san k _ hk]
    rw [ih _ hnd2 ?_]
    · simp [List.append_assoc]
    · intro k2 hk2
      rw [show objKeys (san ++ [(k, sanitizeValue (objGet data k))]) =
            objKeys san ++ [k] from by simp [objKeys]]
      rw [List.mem_append]
      rintro (hmem | hmem)
      · exact hdis k2 (List.mem_cons_of_mem _ hk2) hmem
      · rw [List.mem_singleton] at hmem
        exact hknot (hmem ▸ hk2)

lemma sanitizeInput_snd (data : JSObj) (hnd : (objKeys data).Nodup) :
    (sanitizeInput data).2 =
      (objKeys data).map (fun k => (k, sanitizeValue (objGet data k))) := by
  unfold sanitizeInput
  rw [sanitizeLoop_snd data _ [] hnd (by intro k _; simp [objKeys])]
  simp

lemma map_objGet_eq (data : JSObj) (hnd : (objKeys data).Nodup) :
    (objKeys data).map (fun k => (k, sanitizeValue (objGet data k))) =
      data.map (fun p => (p.1, sanitizeValue p.2)) := by
  induction data with
  | nil => rfl
  | cons p rest ih =>
    obtain ⟨k0, v0⟩ := p
    rw [show objKeys ((k0, v0) :: rest) = k0 :: objKeys rest from rfl] at hnd
    obtain ⟨h1, h2⟩ := List.nodup_cons.mp hnd
    rw [show objKeys ((k0, v0) :: rest) = k0 :: objKeys rest from rfl,
        List.map_cons, List.map_cons]
    refine congrArg₂ _ ?_ ?_
    · simp [objGet, List.find?]
    · rw [List.map_congr_left fun k hkmem => ?_, ih h2]
      have hne : ¬ ((k0, v0).1 == k) = true := by
        rw [beq_iff_eq]
        exact fun e => h1 (show k0 ∈ objKeys rest by
          rw [show k0 = k from e]; exact hkmem)
      simp [objGet, List.find?, hne]

lemma objGet_map_sanitize (data : JSObj) (k : String) (v : JSValue)
    (hmem : (k, v) ∈ data) (hnd : (objKeys data).Nodup) :
    objGet (data.map (fun p => (p.1, sanitizeValue p.2))) k = sanitizeValue v := by
  induction data with
  | nil => cases hmem
  | cons p rest ih =>
    obtain ⟨k0, v0⟩ := p
    rw [show objKeys ((k0, v0) :: rest) = k0 :: objKeys rest from rfl] at hnd
    obtain ⟨h1, h2⟩ := List.nodup_cons.mp hnd
    rcases List.mem_cons.mp hmem with heq | hmem2
    · obtain ⟨rfl, rfl⟩ := Prod.mk.injEq k v k0 v0 ▸ heq
      simp [objGet, List.find?]
    · have hkmem : k ∈ objKeys rest := List.mem_map.mpr ⟨(k, v), hmem2, rfl⟩
      have hne : ¬ (k0 == k) = true := by
        rw [beq_iff_eq]
        exact fun e => h1 (show k0 ∈ objKeys rest by rw [e]; exact hkmem)
      rw [List.map_cons, show objGet (((k0, v0).1, sanitizeValue (k0, v0).2) ::
            rest.map (fun p => (p.1, sanitizeValue p.2))) k =
          objGet (rest.map (fun p => (p.1, sanitizeValue p.2))) k from by
            simp [objGet, List.find?, hne]]
      exact ih hmem2 h2

/-- Claim C9: `sanitizeInput` leaves the input object untouched and
returns an object in which every string field is trimmed and then has its
angle brackets removed, while every non-string field passes through
unchanged. -/
theorem claim_C9 (data : JSObj) (hnd : (objKeys data).Nodup) :
    (sanitizeInput data).1 = data ∧
    (∀ k s, (k, JSValue.vstr s) ∈ data →
      objGet (sanitizeInput data).2 k = .vstr (stripAngle (jsTrim s))) ∧
    (∀ k v, (k, v) ∈ data → (∀ s, v ≠ .vstr s) →
      objGet (sanitizeInput data).2 k = v) := by
  refine ⟨sanitizeLoop_fst _ _ _, ?_, ?_⟩
  · intro k s hmem
    rw [sanitizeInput_snd data hnd, map_objGet_eq data hnd,
        objGet_map_sanitize data k _ hmem hnd]
    rfl
  · intro k v hmem hnv
    rw [sanitizeInput_snd data hnd, map_objGet_eq data hnd,
        objGet_map_sanitize data k v hmem hnd]
    cases v with
    | vstr s => exact absurd rfl (hnv s)
    | undefined => rfl
    | vnum n => rfl
    | varr l => rfl

/-- Witness for C9 on a two-field object: the input is unchanged, the
string field is trimmed and stripped, the numeric field passes through. -/
theorem claim_C9_witness :
    (sanitizeInput sampleObj).1 = sampleObj ∧
    objGet (sanitizeInput sampleObj).2 "name" =
      .vstr (stripAngle (jsTrim " <b>Bob</b> ")) ∧
    objGet (sanitizeInput sampleObj).2 "performance" = .vnum (.num 50) :=
  ⟨(claim_C9 sampleObj (by decide)).1,
   (claim_C9 sampleObj (by decide)).2.1 "name" " <b>Bob</b> " (by decide),
   (claim_C9 sampleObj (by decide)).2.2 "performance" (.vnum (.num 50)) (by decide)
     (fun s => by simp)⟩

/-- Counterexample to C2 as stated: the record with name `"{topic}"`
passes validation, is a fixed point of sanitization, and yet the rendered
feedback retains an unresolved `{topic}` token — the name substitution
injects the token after its own slot has been scanned, and the topic
substitution only replaces the first occurrence. -/
theorem claim_C2_counterexample :
    (validateStudentData braceRecord).isValid = true ∧
    sanitizeStudent braceRecord = braceRecord ∧
    (generateFeedback braceRecord emptyCriteria "T").map
      (fun r => hasUnresolvedPlaceholder r.feedback) = .ok true := by
  decide

lemma getSubst_no_dollar (m pre post repl : List Char) (h : '$' ∉ repl) :
    getSubst m pre post repl = repl := by
  induction repl with
  | nil => rfl
  | cons c rest ih =>
    have hc : ¬ c = '$' := fun e => h (e ▸ List.mem_cons_self _ _)
    have hrest : '$' ∉ rest := fun m2 => h (List.mem_cons_of_mem _ m2)
    unfold getSubst
    rw [if_neg hc]
    exact congrArg (c :: ·) (ih hrest)

lemma nmem_append {c : Char} {l1 l2 : List Char} (h1 : c ∉ l1) (h2 : c ∉ l2) :
    c ∉ l1 ++ l2 :=
  fun h => (List.mem_append.mp h).elim h1 h2

lemma firstOcc_at_start (pat s : List Char) (h : pat <+: s) :
    firstOcc pat s = some ([], s.drop pat.length) := by
  cases s with
  | nil =>
    have hp : pat = [] := List.prefix_nil.mp h
    subst hp
    rfl
  | cons c cs =>
    have hb : pat.isPrefixOf (c :: cs) = true := List.isPrefixOf_iff_prefix.mpr h
    simp [firstOcc, hb]

lemma firstOcc_self_append (pat b : List Char) :
    firstOcc pat (pat ++ b) = some ([], b) := by
  rw [firstOcc_at_start pat _ (List.prefix_append pat b), List.drop_left]

lemma firstOcc_append_left (pat a b pt : List Char)
    (hp : pat = Char.ofNat 123 :: pt) (ha : Char.ofNat 123 ∉ a) :
    firstOcc pat (a ++ b) = (firstOcc pat b).map (fun pr => (a ++ pr.1, pr.2)) := by
  induction a with
  | nil =>
    rw [List.nil_append]
    cases firstOcc pat b with
    | none => rfl
    | some pr => simp
  | cons c a2 ih =>
    have hc : c ≠ Char.ofNat 123 := fun e => ha (e ▸ List.mem_cons_self _ _)
    have ha2 : Char.ofNat 123 ∉ a2 := fun m => ha (List.mem_cons_of_mem _ m)
    have hnp : ¬ pat.isPrefixOf (c :: (a2 ++ b)) = true := by
      rw [ List.isPrefixOf_iff_prefix, hp, List.cons_prefix_cons]
      rintro ⟨h1, -⟩
      exact hc h1.symm
    rw [List.cons_append]
    rw [show firstOcc pat (c :: (a2 ++ b)) =
          (firstOcc pat (a2 ++ b)).map (fun pr => (c :: pr.1, pr.2)) from by
        simp [firstOcc, hnp]]
    rw [ih ha2]
    cases firstOcc pat b <;> simp

lemma firstOcc_none_of_not_mem (pat s pt : List Char)
    (hp : pat = Char.ofNat 123 :: pt) (hs : Char.ofNat 123 ∉ s) :
    firstOcc pat s = none := by
  induction s with
  | nil => subst hp; rfl
  | cons c cs ih =>
    have hc : c ≠ Char.ofNat 123 := fun e => hs (e ▸ List.mem_cons_self _ _)
    have hcs : Char.ofNat 123 ∉ cs := fun m => hs (List.mem_cons_of_mem _ m)
    have hnp : ¬ pat.isPrefixOf (c :: cs) = true := by
      rw [ List.isPrefixOf_iff_prefix, hp, List.cons_prefix_cons]
      rintro ⟨h1, -⟩
      exact hc h1.symm
    simp [firstOcc, hnp, ih hcs]

lemma hasUnresolved_eq_false (s : String) (h : Char.ofNat 123 ∉ s.data) :
    hasUnresolvedPlaceholder s = false := by
  have e : ∀ k : String, firstOcc (placeholderPat k).data s.data = none := fun k =>
    firstOcc_none_of_not_mem _ _ _ rfl h
  simp [hasUnresolvedPlaceholder, e]

lemma listReplace_head (pat b v : List Char) (hv : '$' ∉ v) :
    listReplace pat (pat ++ b) v = v ++ b := by
  have hg := getSubst_no_dollar pat [] b v hv
  simp [listReplace, firstOcc_self_append, hg]

lemma listReplace_clean_front (pat a b v pt : List Char)
    (hp : pat = Char.ofNat 123 :: pt) (ha : Char.ofNat 123 ∉ a) (hv : '$' ∉ v) :
    listReplace pat (a ++ b) v = a ++ listReplace pat b v := by
  unfold listReplace
  rw [firstOcc_append_left pat a b pt hp ha]
  cases h2 : firstOcc pat b with
  | none => simp
  | some pr =>
    obtain ⟨pre, post⟩ := pr
    have g1 := getSubst_no_dollar pat (a ++ pre) post v hv
    have g2 := getSubst_no_dollar pat pre post v hv
    simp [g1, g2, List.append_assoc]

lemma listReplace_none (pat s v : List Char) (h : firstOcc pat s = none) :
    listReplace pat s v = s := by
  unfold listReplace
  rw [h]

lemma pat_student_data :
    (placeholderPat "student").data =
      Char.ofNat 123 :: ("student".data ++ [Char.ofNat 125]) := rfl

lemma pat_topic_data :
    (placeholderPat "topic").data =
      Char.ofNat 123 :: ("topic".data ++ [Char.ofNat 125]) := rfl

lemma pat_areas_data :
    (placeholderPat "areas").data =
      Char.ofNat 123 :: ("areas".data ++ [Char.ofNat 125]) := rfl

lemma pat_recs_data :
    (placeholderPat "recommendations").data =
      Char.ofNat 123 :: ("recommendations".data ++ [Char.ofNat 125]) := rfl

lemma personalize_exc (nm sb ar rc : String)
    (hnmb : Char.ofNat 123 ∉ nm.data) (hnmd : '$' ∉ nm.data)
    (hsbb : Char.ofNat 123 ∉ sb.data) (hsbd : '$' ∉ sb.data)
    (hard : '$' ∉ ar.data) (hrcd : '$' ∉ rc.data) :
    Char.ofNat 123 ∉ (personalizeFeedback
      "Outstanding work! {student} has demonstrated exceptional understanding of {topic}."
      [("student", .vstr nm), ("topic", .vstr sb), ("areas", .vstr ar),
       ("recommendations", .vstr rc)]).data := by
  have e1 : listReplace (placeholderPat "student").data
      ("Outstanding work! {student} has demonstrated exceptional understanding of {topic}." : String).data
      nm.data =
      "Outstanding work! ".data ++
        (nm.data ++ " has demonstrated exceptional understanding of {topic}.".data) := by
    rw [show ("Outstanding work! {student} has demonstrated exceptional understanding of {topic}." : String).data =
          "Outstanding work! ".data ++ ((placeholderPat "student").data ++
            " has demonstrated exceptional understanding of {topic}.".data) from by decide]
    rw [listReplace_clean_front _ _ _ _ _ pat_student_data (by decide) hnmd]
    rw [listReplace_head _ _ _ hnmd]
  have e2 : listReplace (placeholderPat "topic").data
      ("Outstanding work! ".data ++
        (nm.data ++ " has demonstrated exceptional understanding of {topic}.".data))
      sb.data =
      "Outstanding work! ".data ++ (nm.data ++
        (" has demonstrated exceptional understanding of ".data ++ (sb.data ++ ".".data))) := by
    rw [show (" has demonstrated exceptional understanding of {topic}." : String).data =
          " has demonstrated exceptional understanding of ".data ++
            ((placeholderPat "topic").data ++ ".".data) from by decide]
    rw [listReplace_clean_front _ _ _ _ _ pat_topic_data (by decide) hsbd]
    rw [listReplace_clean_front _ _ _ _ _ pat_topic_data hnmb hsbd]
    rw [listReplace_clean_front _ _ _ _ _ pat_topic_data (by decide) hsbd]
    rw [listReplace_head _ _ _ hsbd]
  have hclean : Char.ofNat 123 ∉
      "Outstanding work! ".data ++ (nm.data ++
        (" has demonstrated exceptional understanding of ".data ++ (sb.data ++ ".".data))) :=
    nmem_append (by decide) (nmem_append hnmb
      (nmem_append (by decide) (nmem_append hsbb (by decide))))
  have e3 := listReplace_none (placeholderPat "areas").data _ ar.data
    (firstOcc_none_of_not_mem _ _ _ pat_areas_data hclean)
  have e4 := listReplace_none (placeholderPat "recommendations").data _ rc.data
    (firstOcc_none_of_not_mem _ _ _ pat_recs_data hclean)
  have hunfold : (personalizeFeedback
      "Outstanding work! {student} has demonstrated exceptional understanding of {topic}."
      [("student", .vstr nm), ("topic", .vstr sb), ("areas", .vstr ar),
       ("recommendations", .vstr rc)]).data =
    listReplace (placeholderPat "recommendations").data
      (listReplace (placeholderPat "areas").data
        (listReplace (placeholderPat "topic").data
          (listReplace (placeholderPat "student").data
            ("Outstanding work! {student} has demonstrated exceptional understanding of {topic}." : String).data
            nm.data) sb.data) ar.data) rc.data := rfl
  rw [hunfold, e1, e2, e3, e4]
  exact hclean

lemma personalize_good (nm sb ar rc : String)
    (hnmb : Char.ofNat 123 ∉ nm.data) (hnmd : '$' ∉ nm.data)
    (hsbb : Char.ofNat 123 ∉ sb.data) (hsbd : '$' ∉ sb.data)
    (harb : Char.ofNat 123 ∉ ar.data) (hard : '$' ∉ ar.data)
    (hrcd : '$' ∉ rc.data) :
    Char.ofNat 123 ∉ (personalizeFeedback
      "Good progress! {student} shows solid grasp of {topic} with room for improvement in {areas}."
      [("student", .vstr nm), ("topic", .vstr sb), ("areas", .vstr ar),
       ("recommendations", .vstr rc)]).data := by
  have e1 : listReplace (placeholderPat "student").data
      ("Good progress! {student} shows solid grasp of {topic} with room for improvement in {areas}." : String).data
      nm.data =
      "Good progress! ".data ++
        (nm.data ++ " shows solid grasp of {topic} with room for improvement in {areas}.".data) := by
    rw [show ("Good progress! {student} shows solid grasp of {topic} with room for improvement in {areas}." : String).data =
          "Good progress! ".data ++ ((placeholderPat "student").data ++
            " shows solid grasp of {topic} with room for improvement in {areas}.".data) from by decide]
    rw [listReplace_clean_front _ _ _ _ _ pat_student_data (by decide) hnmd]
    rw [listReplace_head _ _ _ hnmd]
  have e2 : listReplace (placeholderPat "topic").data
      ("Good progress! ".data ++
        (nm.data ++ " shows solid grasp of {topic} with room for improvement in {areas}.".data))
      sb.data =
      "Good progress! ".data ++ (nm.data ++ (" shows solid grasp of ".data ++
        (sb.data ++ " with room for improvement in {areas}.".data))) := by
    rw [show (" shows solid grasp of {topic} with room for improvement in {areas}." : String).data =
          " shows solid grasp of ".data ++ ((placeholderPat "topic").data ++
            " with room for improvement in {areas}.".data) from by decide]
    rw [listReplace_clean_front _ _ _ _ _ pat_topic_data (by decide) hsbd]
    rw [listReplace_clean_front _ _ _ _ _ pat_topic_data hnmb hsbd]
    rw [listReplace_clean_front _ _ _ _ _ pat_topic_data (by decide) hsbd]
    rw [listReplace_head _ _ _ hsbd]
  have e3 : listReplace (placeholderPat "areas").data
      ("Good progress! ".data ++ (nm.data ++ (" shows solid grasp of ".data ++
        (sb.data ++ " with room for improvement in {areas}.".data))))
      ar.data =
      "Good progress! ".data ++ (nm.data ++ (" shows solid grasp of ".data ++
        (sb.data ++ (" with room for improvement in ".data ++ (ar.data ++ ".".data))))) := by
    rw [show (" with room for improvement in {areas}." : String).data =
          " with room for improvement in ".data ++
            ((placeholderPat "areas").data ++ ".".data) from by decide]
    rw [listReplace_clean_front _ _ _ _ _ pat_areas_data (by decide) hard]
    rw [listReplace_clean_front _ _ _ _ _ pat_areas_data hnmb hard]
    rw [listReplace_clean_front _ _ _ _ _ pat_areas_data (by decide) hard]
    rw [listReplace_clean_front _ _ _ _ _ pat_areas_data hsbb hard]
    rw [listReplace_clean_front _ _ _ _ _ pat_areas_data (by decide) hard]
    rw [listReplace_head _ _ _ hard]
  have hclean : Char.ofNat 123 ∉
      "Good progress! ".data ++ (nm.data ++ (" shows solid grasp of ".data ++
        (sb.data ++ (" with room for improvement in ".data ++ (ar.data ++ ".".data))))) :=
    nmem_append (by decide) (nmem_append hnmb (nmem_append (by decide)
      (nmem_append hsbb (nmem_append (by decide) (nmem_append harb (by decide))))))
  have e4 := listReplace_none (placeholderPat "recommendations").data _ rc.data
    (firstOcc_none_of_not_mem _ _ _ pat_recs_data hclean)
  have hunfold : (personalizeFeedback
      "Good progress! {student} shows solid grasp of {topic} with room for improvement in {areas}."
      [("student", .vstr nm), ("topic", .vstr sb), ("areas", .vstr ar),
       ("recommendations", .vstr rc)]).data =
    listReplace (placeholderPat "recommendations").data
      (listReplace (placeholderPat "areas").data
        (listReplace (placeholderPat "topic").data
          (listReplace (placeholderPat "student").data
            ("Good progress! {student} shows solid grasp of {topic} with room for improvement in {areas}." : String).data
            nm.data) sb.data) ar.data) rc.data := rfl
  rw [hunfold, e1, e2, e3, e4]
  exact hclean

lemma personalize_ni (nm sb ar rc : String)
    (hnmb : Char.ofNat 123 ∉ nm.data) (hnmd : '$' ∉ nm.data)
    (hsbb : Char.ofNat 123 ∉ sb.data) (hsbd : '$' ∉ sb.data)
    (hard : '$' ∉ ar.data)
    (hrcb : Char.ofNat 123 ∉ rc.data) (hrcd : '$' ∉ rc.data) :
    Char.ofNat 123 ∉ (personalizeFeedback
      "{student} needs additional support in {topic}. Consider focusing on {recommendations}."
      [("student", .vstr nm), ("topic", .vstr sb), ("areas", .vstr ar),
       ("recommendations", .vstr rc)]).data := by
  have e1 : listReplace (placeholderPat "student").data
      ("{student} needs additional support in {topic}. Consider focusing on {recommendations}." : String).data
      nm.data =
      nm.data ++ " needs additional support in {topic}. Consider focusing on {recommendations}.".data := by
    rw [show ("{student} needs additional support in {topic}. Consider focusing on {recommendations}." : String).data =
          (placeholderPat "student").data ++
            " needs additional support in {topic}. Consider focusing on {recommendations}.".data from by decide]
    rw [listReplace_head _ _ _ hnmd]
  have e2 : listReplace (placeholderPat "topic").data
      (nm.data ++ " needs additional support in {topic}. Consider focusing on {recommendations}.".data)
      sb.data =
      nm.data ++ (" needs additional support in ".data ++
        (sb.data ++ ". Consider focusing on {recommendations}.".data)) := by
    rw [show (" needs additional support in {topic}. Consider focusing on {recommendations}." : String).data =
          " needs additional support in ".data ++ ((placeholderPat "topic").data ++
            ". Consider focusing on {recommendations}.".data) from by decide]
    rw [listReplace_clean_front _ _ _ _ _ pat_topic_data hnmb hsbd]
    rw [listReplace_clean_front _ _ _ _ _ pat_topic_data (by decide) hsbd]
    rw [listReplace_head _ _ _ hsbd]
  have e3 : listReplace (placeholderPat "areas").data
      (nm.data ++ (" needs additional support in ".data ++
        (sb.data ++ ". Consider focusing on {recommendations}.".data)))
      ar.data =
      nm.data ++ (" needs additional support in ".data ++
        (sb.data ++ ". Consider focusing on {recommendations}.".data)) := by
    rw [listReplace_clean_front _ _ _ _ _ pat_areas_data hnmb hard]
    rw [listReplace_clean_front _ _ _ _ _ pat_areas_data (by decide) hard]
    rw [listReplace_clean_front _ _ _ _ _ pat_areas_data hsbb hard]
    rw [listReplace_none _ _ _ (by decide)]
  have e4 : listReplace (placeholderPat "recommendations").data
      (nm.data ++ (" needs additional support in ".data ++
        (sb.data ++ ". Consider focusing on {recommendations}.".data)))
      rc.data =
      nm.data ++ (" needs additional support in ".data ++
        (sb.data ++ (". Consider focusing on ".data ++ (rc.data ++ ".".data)))) := by
    rw [show (". Consider focusing on {recommendations}." : String).data =
          ". Consider focusing on ".data ++
            ((placeholderPat "recommendations").data ++ ".".data) from by decide]
    rw [listReplace_clean_front _ _ _ _ _ pat_recs_data hnmb hrcd]
    rw [listReplace_clean_front _ _ _ _ _ pat_recs_data (by decide) hrcd]
    rw [listReplace_clean_front _ _ _ _ _ pat_recs_data hsbb hrcd]
    rw [listReplace_clean_front _ _ _ _ _ pat_recs_data (by decide) hrcd]
    rw [listReplace_head _ _ _ hrcd]
  have hclean : Char.ofNat 123 ∉
      nm.data ++ (" needs additional support in ".data ++
        (sb.data ++ (". Consider focusing on ".data ++ (rc.data ++ ".".data)))) :=
    nmem_append hnmb (nmem_append (by decide) (nmem_append hsbb
      (nmem_append (by decide) (nmem_append hrcb (by decide)))))
  have hunfold : (personalizeFeedback
      "{student} needs additional support in {topic}. Consider focusing on {recommendations}."
      [("student", .vstr nm), ("topic", .vstr sb), ("areas", .vstr ar),
       ("recommendations", .vstr rc)]).data =
    listReplace (placeholderPat "recommendations").data
      (listReplace (placeholderPat "areas").data
        (listReplace (placeholderPat "topic").data
          (listReplace (placeholderPat "student").data
            ("{student} needs additional support in {topic}. Consider focusing on {recommendations}." : String).data
            nm.data) sb.data) ar.data) rc.data := rfl
  rw [hunfold, e1, e2, e3, e4]
  exact hclean

lemma cleanStr_mem (s : String) (h : cleanStr s = true) :
    Char.ofNat 123 ∉ s.data ∧ '$' ∉ s.data := by
  simp only [cleanStr, List.all_eq_true, Bool.not_eq_eq_eq_not, Bool.not_true,
    Bool.or_eq_false_iff, beq_eq_false_iff_ne, ne_eq] at h
  exact ⟨fun hm => (h _ hm).1 rfl, fun hm => (h _ hm).2 rfl⟩

lemma cleanStr_append (x y : String) :
    cleanStr (x ++ y) = (cleanStr x && cleanStr y) := by
  simp [cleanStr, String.data_append, List.all_append]

lemma cleanStr_jsJoin (sep : String) (l : List String) (hsep : cleanStr sep = true)
    (hl : ∀ x ∈ l, cleanStr x = true) : cleanStr (jsJoin sep l) = true := by
  cases l with
  | nil => exact (by decide : cleanStr "" = true)
  | cons x xs =>
    have haux : ∀ (ys : List String) (acc : String), cleanStr acc = true →
        (∀ y ∈ ys, cleanStr y = true) →
        cleanStr (ys.foldl (fun a y => a ++ (sep ++ y)) acc) = true := by
      intro ys
      induction ys with
      | nil => intro acc h1 _; exact h1
      | cons y ys ih =>
        intro acc h1 h2
        rw [List.foldl_cons]
        exact ih _ (by rw [cleanStr_append, cleanStr_append, h1, hsep,
            h2 y (List.mem_cons_self _ _)]; rfl)
          (fun z hz => h2 z (List.mem_cons_of_mem _ hz))
    exact haux xs x (hl x (List.mem_cons_self _ _))
      (fun z hz => hl z (List.mem_cons_of_mem _ hz))

lemma valid_errors_nil (sd : StudentData)
    (h : (validateStudentData sd).isValid = true) :
    (validateStudentData sd).errors = [] :=
  List.eq_nil_of_length_eq_zero (of_decide_eq_true h)

lemma valid_name_subject (sd : StudentData)
    (h : (validateStudentData sd).isValid = true) :
    (∃ nm, sd.name = .vstr nm) ∧ (∃ sb, sd.subject = .vstr sb) := by
  obtain ⟨nmv, pf, sbv, wav, stv, lsv⟩ := sd
  have herr := valid_errors_nil _ h
  constructor
  · cases nmv with
    | vstr s => exact ⟨s, rfl⟩
    | undefined => simp [validateStudentData, truthy] at herr
    | vnum n =>
      by_cases ht : numTruthy n = true <;>
        simp [validateStudentData, truthy, ht] at herr
    | varr l => simp [validateStudentData, truthy] at herr
  · cases sbv with
    | vstr s => exact ⟨s, rfl⟩
    | undefined => simp [validateStudentData, truthy] at herr
    | vnum n =>
      by_cases ht : numTruthy n = true <;>
        simp [validateStudentData, truthy, ht] at herr
    | varr l => simp [validateStudentData, truthy] at herr

lemma areasBinding_ok_clean (w : JSValue) (a : String) (hw : cleanV w = true)
    (h : areasBinding w = .ok a) : cleanStr a = true := by
  cases w with
  | undefined =>
    simp [areasBinding, jsOptJoin, Except.map] at h
    rw [← h]; decide
  | vstr s => simp [areasBinding, jsOptJoin, Except.map] at h
  | vnum n => simp [areasBinding, jsOptJoin, Except.map] at h
  | varr l =>
    simp only [areasBinding, jsOptJoin, Except.map, Except.ok.injEq] at h
    rw [← h]
    by_cases hj : jsJoin ", " l = ""
    · rw [if_pos hj]; decide
    · rw [if_neg hj]
      exact cleanStr_jsJoin _ _ (by decide) (by simpa [cleanV, List.all_eq_true] using hw)

lemma genRecs_ok_clean (w s : JSValue) (r : String)
    (hw : cleanV w = true) (hs : cleanV s = true)
    (h : generateRecommendations w s = .ok r) : cleanStr r = true := by
  cases w with
  | undefined =>
    simp only [generateRecommendations, Except.ok.injEq] at h
    rw [← h]; decide
  | vstr t =>
    by_cases ht : t = "" <;> simp [generateRecommendations, ht] at h
    rw [← h]; decide
  | vnum n =>
    by_cases ht : numTruthy n = true <;> simp [generateRecommendations, ht] at h
    rw [← h]; decide
  | varr l =>
    by_cases hl : l.length = 0
    · simp only [generateRecommendations, hl, if_pos, Except.ok.injEq] at h
      rw [← h]; decide
    · have hlcl : ∀ x ∈ l, cleanStr x = true := by
        simpa [cleanV, List.all_eq_true] using hw
      have hjcl : cleanStr (jsJoin " and " (l.take 2)) = true :=
        cleanStr_jsJoin _ _ (by decide)
          (fun x hx => hlcl x (List.take_subset _ _ hx))
      cases hss : s with
      | undefined =>
        rw [hss] at h
        simp [generateRecommendations, hl, strengthsPart, jsOptJoin, Except.map] at h
        rw [← h]
        simp only [cleanStr_append, hjcl]
        decide
      | vstr t => rw [hss] at h; simp [generateRecommendations, hl, strengthsPart, jsOptJoin, Except.map] at h
      | vnum n => rw [hss] at h; simp [generateRecommendations, hl, strengthsPart, jsOptJoin, Except.map] at h
      | varr m =>
        rw [hss] at h
        simp [generateRecommendations, hl, strengthsPart, jsOptJoin, Except.map] at h
        rw [← h]
        have hmcl : ∀ x ∈ m, cleanStr x = true := by
          rw [hss] at hs
          simpa [cleanV, List.all_eq_true] using hs
        have hsp : cleanStr (if jsJoin " and " m = "" then "identified areas"
            else jsJoin " and " m) = true := by
          by_cases hj : jsJoin " and " m = ""
          · rw [if_pos hj]; decide
          · rw [if_neg hj]; exact cleanStr_jsJoin _ _ (by decide) hmcl
        simp only [cleanStr_append, hjcl, hsp]
        decide

lemma except_bind_ok {α β : Type} (a : α) (f : α → Except Unit β) :
    (Except.ok a : Except Unit α) >>= f = f a := rfl

lemma except_bind_err {α β : Type} (e : Unit) (f : α → Except Unit β) :
    (Except.error e : Except Unit α) >>= f = Except.error e := rfl

/-- Claim C2 as amended: for a record that passed validation and is fixed
by sanitization, and whose string-valued data contain no brace and no
dollar character (a brace can smuggle a placeholder token into the
output, and a dollar triggers the replacement-string escapes of
`String.prototype.replace`), the rendered feedback contains no unresolved
placeholder token. -/
theorem claim_C2_amended (sd : StudentData) (c : Criteria) (now : String)
    (res : FeedbackResult)
    (hvalid : (validateStudentData sd).isValid = true)
    (hsan : sanitizeStudent sd = sd)
    (hname : cleanV sd.name = true) (hsubj : cleanV sd.subject = true)
    (hwk : cleanV sd.weakAreas = true) (hstr : cleanV sd.strengths = true)
    (hok : generateFeedback sd c now = .ok res) :
    hasUnresolvedPlaceholder res.feedback = false := by
  obtain ⟨⟨nm, hnm⟩, ⟨sb, hsb⟩⟩ := valid_name_subject sd hvalid
  cases ha : areasBinding sd.weakAreas with
  | error e => simp [generateFeedback, ha, except_bind_ok, except_bind_err] at hok
  | ok areas =>
  cases hr : generateRecommendations sd.weakAreas sd.strengths with
  | error e => simp [generateFeedback, ha, hr, except_bind_ok, except_bind_err] at hok
  | ok recs =>
  cases hd : generateDetailedRecommendations sd with
  | error e => simp [generateFeedback, ha, hr, hd, except_bind_ok, except_bind_err] at hok
  | ok det =>
  cases hx : generateNextSteps (assessPerformance sd.performance) sd.weakAreas with
  | error e => simp [generateFeedback, ha, hr, hd, hx, except_bind_ok, except_bind_err] at hok
  | ok nxt =>
  have hfb : res.feedback = personalizeFeedback
      (getBaseTemplate (assessPerformance sd.performance))
      [("student", sd.name), ("topic", sd.subject),
       ("areas", .vstr areas), ("recommendations", .vstr recs)] := by
    simp [generateFeedback, ha, hr, hd, hx, except_bind_ok, except_bind_err] at hok
    rw [← hok]
  rw [hfb, hnm, hsb]
  rw [hnm] at hname
  rw [hsb] at hsubj
  have hnmc := cleanStr_mem nm hname
  have hsbc := cleanStr_mem sb hsubj
  have harc := cleanStr_mem areas (areasBinding_ok_clean _ _ hwk ha)
  have hrcc := cleanStr_mem recs (genRecs_ok_clean _ _ _ hwk hstr hr)
  rcases assess_total sd.performance with hl | hl | hl <;> rw [hl]
  · rw [show getBaseTemplate "excellent" =
        "Outstanding work! {student} has demonstrated exceptional understanding of {topic}."
        from by decide]
    exact hasUnresolved_eq_false _
      (personalize_exc nm sb areas recs hnmc.1 hnmc.2 hsbc.1 hsbc.2 harc.2 hrcc.2)
  · rw [show getBaseTemplate "good" =
        "Good progress! {student} shows solid grasp of {topic} with room for improvement in {areas}."
        from by decide]
    exact hasUnresolved_eq_false _
      (personalize_good nm sb areas recs hnmc.1 hnmc.2 hsbc.1 hsbc.2 harc.1 harc.2 hrcc.2)
  · rw [show getBaseTemplate "needsImprovement" =
        "{student} needs additional support in {topic}. Consider focusing on {recommendations}."
        from by decide]
    exact hasUnresolved_eq_false _
      (personalize_ni nm sb areas recs hnmc.1 hnmc.2 hsbc.1 hsbc.2 harc.2 hrcc.1 hrcc.2)

set_option maxRecDepth 8000 in
/-- Witness for the amended C2: a brace- and dollar-free validated record
renders with every placeholder resolved. -/
theorem claim_C2_amended_witness :
    hasUnresolvedPlaceholder
      "Outstanding work! John Doe has demonstrated exceptional understanding of Mathematics." =
      false :=
  claim_C2_amended johnRecord emptyCriteria "T"
    { studentName := .vstr "John Doe", subject := .vstr "Mathematics",
      performanceLevel := "excellent",
      feedback := "Outstanding work! John Doe has demonstrated exceptional understanding of Mathematics.",
      recommendations := ["Build upon strengths: Problem solving, Analytical thinking"],
      nextSteps := ["Explore advanced topics and challenges",
                    "Consider peer tutoring opportunities"],
      timestamp := "T" }
    (by decide) (by decide) (by decide) (by decide) (by decide) (by decide) (by decide)
